import Mathlib

/-!
Shallow embedding of `src/sdwan.py`: the SD-WAN controller (topology store,
path selection and scoring, traffic simulation) and the drift-driven
reoptimizer (`DynamicPathOptimizer`).

Modelling conventions:
* Python floats are modelled as exact rationals (`ℚ`); the float literals
  `0.5`, `0.3`, `0.1` in the source are the exact rationals they denote.
* `float('inf')` (the initial running bandwidth minimum in
  `_get_path_metrics`) is modelled by `Option ℚ` with `none` standing for
  positive infinity.
* Python exceptions are modelled by an `Except SdwanError` codomain; a
  method that can never raise simply never returns `Except.error`.
* `networkx.Graph` is modelled by explicit node and edge lists in insertion
  order; `nx.shortest_path` is modelled as the minimum-weight simple path
  (ties broken by enumeration order, hence deterministically).
* The randomized `monitor_links` method is outside every claim (it is the
  simulated telemetry feed) and is not embedded.
-/

namespace SDWAN

/-- Error taxonomy: the spec's named errors plus the Python runtime errors
the source can actually raise (`KeyError`, `UnboundLocalError`). -/
inductive SdwanError where
  | unknownNodeError
  | duplicateNodeError
  | duplicateLinkError
  | linkNotFoundError
  | noPathError
  | unknownFlowError
  | keyError
  | unboundLocalError
deriving DecidableEq

/-- Mirrors the Python dataclass `NetworkLink` (latency ms, jitter ms,
packet_loss percent, bandwidth Mbps, cost). -/
structure NetworkLink where
  latency : ℚ
  jitter : ℚ
  packet_loss : ℚ
  bandwidth : ℚ
  cost : ℚ
deriving DecidableEq

/-- Mirrors the Python dataclass `TrafficFlow`. -/
structure TrafficFlow where
  source : String
  destination : String
  required_bandwidth : ℚ
  priority : ℤ
  sensitivity : String
deriving DecidableEq

/-- Undirected topology as `networkx.Graph` stores it: nodes in insertion
order with their `type` attribute (`none` for nodes auto-created by
`add_edge`), and edges in insertion order keyed by their endpoint pair. -/
structure Graph where
  nodes : List (String × Option String)
  edges : List (String × String × NetworkLink)
deriving DecidableEq

/-- Node identifiers currently in the graph. -/
def Graph.nodeIds (g : Graph) : List String := g.nodes.map Prod.fst

/-- An edge record matches the unordered pair `{a, b}` (networkx edges are
undirected, stored under one orientation). -/
def matchKey (a b : String) (e : String × String × NetworkLink) : Bool :=
  (e.1 == a && e.2.1 == b) || (e.1 == b && e.2.1 == a)

/-- Edge-attribute lookup `G[a][b]`, `none` when no edge joins `a` and `b`. -/
def Graph.findEdge (g : Graph) (a b : String) : Option NetworkLink :=
  (g.edges.find? (matchKey a b)).map (fun e => e.2.2)

/-- Adjacency test `G.has_edge(a, b)`. -/
def Graph.adj (g : Graph) (a b : String) : Bool := (g.findEdge a b).isSome

/-- `networkx` auto-creates a missing endpoint (with no `type` attribute)
when an edge is added. -/
def ensureNode (ns : List (String × Option String)) (id : String) :
    List (String × Option String) :=
  if ns.any (fun n => n.1 == id) then ns else ns ++ [(id, none)]

/-- `G.add_node(id, type=ty)`: updates the attribute in place when the node
exists, appends otherwise. -/
def Graph.add_node (g : Graph) (id ty : String) : Graph :=
  if g.nodes.any (fun n => n.1 == id) then
    { g with nodes := g.nodes.map (fun n => if n.1 == id then (n.1, some ty) else n) }
  else
    { g with nodes := g.nodes ++ [(id, some ty)] }

/-- `G.add_edge(a, b, **link.__dict__)`: auto-creates missing endpoints and,
when the unordered pair already has an edge, overwrites its attributes
(all five `NetworkLink` fields) in place; otherwise appends a new edge. -/
def Graph.add_edge (g : Graph) (a b : String) (l : NetworkLink) : Graph :=
  let ns := ensureNode (ensureNode g.nodes a) b
  if (g.edges.find? (matchKey a b)).isSome then
    { nodes := ns
      edges := g.edges.map (fun e => if matchKey a b e then (e.1, e.2.1, l) else e) }
  else
    { nodes := ns, edges := g.edges ++ [(a, b, l)] }

/-- Controller state: the topology and the flow registry (a Python dict in
insertion order).  The unused `policies` and `performance_metrics` fields of
the Python class are never read or written by any modelled operation and are
omitted. -/
structure SDWANController where
  topology : Graph
  flows : List (String × TrafficFlow)
deriving DecidableEq

/-- `SDWANController.add_node`. -/
def add_node (c : SDWANController) (node_id node_type : String) : SDWANController :=
  { c with topology := c.topology.add_node node_id node_type }

/-- `SDWANController.add_link`.  The Python method delegates to
`networkx.add_edge` and can never raise; the `Except` codomain records that
no error of the spec's taxonomy is produced. -/
def add_link (c : SDWANController) (node1 node2 : String) (link : NetworkLink) :
    Except SdwanError SDWANController :=
  Except.ok { c with topology := c.topology.add_edge node1 node2 link }

/-- `SDWANController.add_traffic_flow`: dict assignment, overwriting in place
when the id is already registered. -/
def add_traffic_flow (c : SDWANController) (flow_id : String) (flow : TrafficFlow) :
    SDWANController :=
  if (c.flows.any (fun kv => kv.1 == flow_id)) then
    { c with flows := c.flows.map (fun kv => if kv.1 == flow_id then (kv.1, flow) else kv) }
  else
    { c with flows := c.flows ++ [(flow_id, flow)] }

/-- A keyword-argument bundle for `update_link_metrics`: `none` means the
field was not supplied in the call. -/
structure MetricUpdate where
  latency : Option ℚ := none
  jitter : Option ℚ := none
  packet_loss : Option ℚ := none
  bandwidth : Option ℚ := none
  cost : Option ℚ := none
deriving DecidableEq

/-- Setting each supplied keyword on the edge-attribute dict, one by one. -/
def applyUpdate (l : NetworkLink) (m : MetricUpdate) : NetworkLink :=
  { latency := m.latency.getD l.latency
    jitter := m.jitter.getD l.jitter
    packet_loss := m.packet_loss.getD l.packet_loss
    bandwidth := m.bandwidth.getD l.bandwidth
    cost := m.cost.getD l.cost }

/-- `SDWANController.update_link_metrics`: guarded by `has_edge`, so when no
edge joins the pair the call silently does nothing; it never raises. -/
def update_link_metrics (c : SDWANController) (node1 node2 : String)
    (m : MetricUpdate) : Except SdwanError SDWANController :=
  if (c.topology.findEdge node1 node2).isSome then
    let edges' := c.topology.edges.map
      (fun e => if matchKey node1 node2 e then (e.1, e.2.1, applyUpdate e.2.2 m) else e)
    Except.ok { c with topology := { c.topology with edges := edges' } }
  else
    Except.ok c

/-! ### Path selection: `calculate_best_path` and its `nx.shortest_path` core -/

/-- Per-edge weight selected by the four-way branch on `flow.sensitivity` in
`calculate_best_path`; the final branch is the unweighted call (hop count,
weight 1 per edge).  In `ℚ` the throughput weight `1 / bandwidth` is total;
the data model's invariant `bandwidth > 0` is the regime where this matches
Python (where `1 / 0.0` would raise `ZeroDivisionError`). -/
def weightFor (sensitivity : String) (l : NetworkLink) : ℚ :=
  if sensitivity = "latency" then l.latency
  else if sensitivity = "throughput" then 1 / l.bandwidth
  else if sensitivity = "reliability" then l.packet_loss + l.jitter * (1 / 10)
  else 1

/-- All duplicate-free walks from `u` to `t` in `g`: `visited` holds the
nodes already on the partial path and `fuel` bounds the recursion depth.
This is the candidate set from which the embedded `nx.shortest_path` picks a
minimum-weight path (for non-negative weights a shortest path is simple). -/
def pathsAux (g : Graph) (t : String) (fuel : Nat) (u : String)
    (visited : List String) : List (List String) :=
  if u = t then [[t]]
  else
    match fuel with
    | 0 => []
    | fuel' + 1 =>
      (g.nodeIds.filter (fun v => g.adj u v && decide (v ∉ visited))).flatMap
        (fun v => (pathsAux g t fuel' v (u :: visited)).map (fun p => u :: p))

/-- All simple paths from `s` to `t` in `g`. -/
def simplePaths (g : Graph) (s t : String) : List (List String) :=
  pathsAux g t g.nodeIds.length s []

/-- Total weight of a path: the weight of each consecutive edge (0 for a
missing edge, which never occurs on enumerated paths). -/
def pathWeight (g : Graph) (w : NetworkLink → ℚ) (p : List String) : ℚ :=
  ((p.zip p.tail).map (fun ab => ((g.findEdge ab.1 ab.2).map w).getD 0)).sum

/-- Minimum-weight element of a candidate list, earliest on ties (making the
choice deterministic, as `nx.shortest_path` is on a fixed graph). -/
def minWeightPath (w : List String → ℚ) : List (List String) → Option (List String)
  | [] => none
  | p :: ps => some (ps.foldl (fun best q => if w q < w best then q else best) p)

/-- Embedding of `nx.shortest_path(G, s, t, weight)`: `NodeNotFound` when an
endpoint is absent (mapped to the spec's `UnknownNodeError`), `NetworkXNoPath`
(the spec's `NoPathError`) when no path exists, otherwise a minimum-weight
path. -/
def shortestPath (g : Graph) (s t : String) (w : NetworkLink → ℚ) :
    Except SdwanError (List String) :=
  if s ∈ g.nodeIds ∧ t ∈ g.nodeIds then
    match minWeightPath (pathWeight g w) (simplePaths g s t) with
    | some p => Except.ok p
    | none => Except.error SdwanError.noPathError
  else Except.error SdwanError.unknownNodeError

/-- `SDWANController.calculate_best_path`: looks up the flow (a missing id is
a Python `KeyError`, the spec's `UnknownFlowError`) and runs the weighted
shortest-path query selected by the flow's sensitivity. -/
def calculate_best_path (c : SDWANController) (flow_id : String) :
    Except SdwanError (List String) :=
  match c.flows.lookup flow_id with
  | none => Except.error SdwanError.unknownFlowError
  | some flow =>
    shortestPath c.topology flow.source flow.destination (weightFor flow.sensitivity)

/-- A walk in `g`: a nonempty node sequence whose consecutive nodes are
adjacent. -/
def isWalk (g : Graph) : List String → Bool
  | [] => false
  | [_] => true
  | u :: v :: rest => g.adj u v && isWalk g (v :: rest)

/-- Connectivity in the underlying (unweighted) graph: some walk joins `s`
to `t`. -/
def Reach (g : Graph) (s t : String) : Prop :=
  ∃ p, isWalk g p = true ∧ p.head? = some s ∧ p.getLast? = some t

/-- Well-formedness: every edge endpoint is a registered node.  Graphs built
through `add_node` / `add_edge` satisfy this. -/
def Graph.wf (g : Graph) : Prop :=
  ∀ e ∈ g.edges, e.1 ∈ g.nodeIds ∧ e.2.1 ∈ g.nodeIds
/-! ### Path metrics and scoring -/

/-- Aggregated metrics of a path (the `_get_path_metrics` result dict).
`bandwidth` is `none` for a path with no edges, standing for the initial
`float('inf')`. -/
structure PathMetrics where
  latency : ℚ
  jitter : ℚ
  packet_loss : ℚ
  bandwidth : Option ℚ
deriving DecidableEq

/-- Loop accumulator of `_get_path_metrics`: running sums, running survival
product (the Python variable `packet_loss`, starting at 1), and running
bandwidth minimum (starting at `float('inf')`, i.e. `none`). -/
structure MetricsAcc where
  latency : ℚ
  jitter : ℚ
  survive : ℚ
  bandwidth : Option ℚ
deriving DecidableEq

/-- One iteration of the `_get_path_metrics` loop on edge `e`. -/
def stepAcc (a : MetricsAcc) (e : NetworkLink) : MetricsAcc :=
  { latency := a.latency + e.latency
    jitter := a.jitter + e.jitter
    survive := a.survive * (1 - e.packet_loss / 100)
    bandwidth := match a.bandwidth with
      | none => some e.bandwidth
      | some b => some (min b e.bandwidth) }

/-- The consecutive edges `self.topology[path[i]][path[i+1]]` of a path;
`none` (a Python `KeyError`) if two consecutive nodes are not linked. -/
def edgesOf (g : Graph) (p : List String) : Option (List NetworkLink) :=
  (p.zip p.tail).mapM (fun ab => g.findEdge ab.1 ab.2)

/-- `SDWANController._get_path_metrics`. -/
def get_path_metrics (g : Graph) (p : List String) : Option PathMetrics :=
  (edgesOf g p).map (fun es =>
    let a := es.foldl stepAcc ⟨0, 0, 1, none⟩
    ⟨a.latency, a.jitter, (1 - a.survive) * 100, a.bandwidth⟩)

/-- The clamp `max(0, min(100, score))` at the end of
`_calculate_path_score`. -/
def clampScore (s : ℚ) : ℚ := max 0 (min 100 s)

/-- `SDWANController._calculate_path_score`.  For a sensitivity outside the
three recognized tags the Python function falls through its `if/elif` chain
with `score` unassigned and raises `UnboundLocalError` at the return
statement: that is the `none` result.  A `none` bandwidth (infinite:
empty-edge path) makes the Python throughput score `inf`, which
`max(0, min(100, inf))` turns into 100 when `required_bandwidth` is positive
as the data model requires. -/
def calculate_path_score (m : PathMetrics) (flow : TrafficFlow) : Option ℚ :=
  if flow.sensitivity = "latency" then
    some (clampScore (100 - m.latency * (1 / 2) - m.jitter * (3 / 10)))
  else if flow.sensitivity = "throughput" then
    some (match m.bandwidth with
      | none => 100
      | some b => clampScore (b / flow.required_bandwidth * 100))
  else if flow.sensitivity = "reliability" then
    some (clampScore (100 - m.packet_loss * 2 - m.jitter * (1 / 2)))
  else none

/-- One entry of the `simulate_traffic` results dict. -/
structure FlowResult where
  path : List String
  metrics : PathMetrics
  score : ℚ
deriving DecidableEq

/-- One iteration of the `simulate_traffic` loop for flow `flow_id`. -/
def evalFlow (c : SDWANController) (flow_id : String) (flow : TrafficFlow) :
    Except SdwanError FlowResult :=
  match calculate_best_path c flow_id with
  | Except.error e => Except.error e
  | Except.ok path =>
    match get_path_metrics c.topology path with
    | none => Except.error SdwanError.keyError
    | some m =>
      match calculate_path_score m flow with
      | none => Except.error SdwanError.unboundLocalError
      | some s => Except.ok ⟨path, m, s⟩

/-- The `simulate_traffic` loop over the flow registry: the results dict is
built entry by entry, and the first flow that raises aborts the whole call
(there is no try/except in the source). -/
def collectResults (c : SDWANController) :
    List (String × TrafficFlow) → Except SdwanError (List (String × FlowResult))
  | [] => Except.ok []
  | kv :: rest =>
    match evalFlow c kv.1 kv.2 with
    | Except.error e => Except.error e
    | Except.ok r =>
      match collectResults c rest with
      | Except.error e => Except.error e
      | Except.ok rs => Except.ok ((kv.1, r) :: rs)

/-- `SDWANController.simulate_traffic`. -/
def simulate_traffic (c : SDWANController) :
    Except SdwanError (List (String × FlowResult)) :=
  collectResults c c.flows

/-! ### Drift monitor: `DynamicPathOptimizer` -/

/-- The per-edge observation `_capture_state` records: exactly latency,
jitter and packet_loss (bandwidth and cost are not captured). -/
structure EdgeState where
  latency : ℚ
  jitter : ℚ
  packet_loss : ℚ
deriving DecidableEq

/-- A `DriftSnapshot`: edge key (in iteration orientation) to observed
metrics, in edge-insertion order. -/
abbrev Snapshot : Type := List ((String × String) × EdgeState)

/-- `DynamicPathOptimizer._capture_state`. -/
def capture_state (g : Graph) : Snapshot :=
  g.edges.map (fun e => ((e.1, e.2.1), ⟨e.2.2.latency, e.2.2.jitter, e.2.2.packet_loss⟩))

/-- Python dict lookup `state[key]` on a snapshot. -/
def lookupEdge (s : Snapshot) (k : String × String) : Option EdgeState :=
  (s.find? (fun kv => kv.1 == k)).map (fun kv => kv.2)

/-- One outer iteration of the `_state_diff` loop: the three inner
`total_diff += abs(...)` updates for one edge key; a key of `state1` missing
from `state2` is a Python `KeyError`, propagated as `none`. -/
def diffStep (s2 : Snapshot) (acc : Option ℚ) (kv : (String × String) × EdgeState) :
    Option ℚ :=
  match acc, lookupEdge s2 kv.1 with
  | some t, some e2 =>
    some (t + |kv.2.latency - e2.latency| + |kv.2.jitter - e2.jitter| +
      |kv.2.packet_loss - e2.packet_loss|)
  | _, _ => none

/-- `DynamicPathOptimizer._state_diff`: `total_diff` starts at 0 and the
loop over `state1`'s keys accumulates the absolute differences of latency,
jitter and packet_loss. -/
def state_diff (s1 s2 : Snapshot) : Option ℚ :=
  s1.foldl (diffStep s2) (some 0)

/-- `DynamicPathOptimizer` state: the snapshot history.  The Python object
also holds the controller reference; here the current topology is passed to
`optimize_paths` explicitly. -/
structure DynamicPathOptimizer where
  history : List Snapshot
deriving DecidableEq

/-- `DynamicPathOptimizer.optimize_paths(threshold)`: captures the current
state; with a nonempty history and drift strictly above the threshold it
returns `true` immediately — before the append, so the history (and hence
the next comparison baseline) is unchanged; otherwise it appends the fresh
snapshot and returns `false`.  `none` is the `KeyError` raised by
`_state_diff` on mismatched edge keys. -/
def optimize_paths (opt : DynamicPathOptimizer) (g : Graph) (threshold : ℚ) :
    Option (Bool × DynamicPathOptimizer) :=
  let current := capture_state g
  match opt.history.getLast? with
  | some last =>
    match state_diff last current with
    | none => none
    | some d =>
      if d > threshold then some (true, opt)
      else some (false, ⟨opt.history ++ [current]⟩)
  | none => some (false, ⟨opt.history ++ [current]⟩)

/-! ### The fixed demo scenario (`run_simulation`, also `app.py`) -/

/-- `add_link` always succeeds; this is its payload (used to build concrete
controllers without unwrapping `Except.ok`). -/
def addLinkOk (c : SDWANController) (node1 node2 : String) (link : NetworkLink) :
    SDWANController :=
  { c with topology := c.topology.add_edge node1 node2 link }

/-- The scenario built by `run_simulation` (and the `app.py` dashboard):
nodes HQ, Branch1, Branch2, CloudGW; five links; flows voip1, backup1,
video1. -/
def demo : SDWANController :=
  let c := add_node (add_node (add_node (add_node ⟨⟨[], []⟩, []⟩ "HQ" "hub")
    "Branch1" "cpe") "Branch2" "cpe") "CloudGW" "cloud"
  let c := addLinkOk c "HQ" "Branch1" ⟨30, 5, 1 / 10, 50, 1⟩
  let c := addLinkOk c "HQ" "Branch2" ⟨40, 8, 2 / 10, 50, 1⟩
  let c := addLinkOk c "Branch1" "Branch2" ⟨20, 3, 5 / 100, 20, 2⟩
  let c := addLinkOk c "Branch1" "CloudGW" ⟨60, 15, 3 / 10, 100, 3⟩
  let c := addLinkOk c "Branch2" "CloudGW" ⟨70, 20, 4 / 10, 100, 3⟩
  let c := add_traffic_flow c "voip1" ⟨"Branch1", "HQ", 1 / 2, 1, "latency"⟩
  let c := add_traffic_flow c "backup1" ⟨"Branch1", "CloudGW", 20, 4, "throughput"⟩
  add_traffic_flow c "video1" ⟨"Branch2", "HQ", 5, 2, "reliability"⟩

/-- A three-flow registry in which the middle flow's destination `D` is an
isolated node: f1 and f3 are reachable, f2 is not. -/
def partialDemo : SDWANController :=
  let c := add_node (add_node (add_node ⟨⟨[], []⟩, []⟩ "A" "cpe") "B" "cpe") "D" "cpe"
  let c := addLinkOk c "A" "B" ⟨10, 1, 0, 100, 1⟩
  let c := add_traffic_flow c "f1" ⟨"A", "B", 1, 1, "latency"⟩
  let c := add_traffic_flow c "f2" ⟨"A", "D", 1, 1, "latency"⟩
  add_traffic_flow c "f3" ⟨"B", "A", 1, 1, "latency"⟩

/-- One-edge topology used as the drift baseline in the optimizer claims. -/
def gBase : Graph :=
  ⟨[("A", some "hub"), ("B", some "cpe")], [("A", "B", ⟨0, 0, 0, 10, 1⟩)]⟩

/-- The `gBase` topology after its latency rose by exactly 10 (jitter,
packet_loss, bandwidth and cost unchanged). -/
def gDrift : Graph :=
  ⟨[("A", some "hub"), ("B", some "cpe")], [("A", "B", ⟨10, 0, 0, 10, 1⟩)]⟩

/-! ### Topology-store lemmas -/

theorem matchKey_iff (a b : String) (e : String × String × NetworkLink) :
    matchKey a b e = true ↔ (e.1 = a ∧ e.2.1 = b) ∨ (e.1 = b ∧ e.2.1 = a) := by
  simp [matchKey]

theorem find?_map_updateIf (a b : String) (f : NetworkLink → NetworkLink) :
    ∀ es : List (String × String × NetworkLink),
      (es.map (fun e => if matchKey a b e then (e.1, e.2.1, f e.2.2) else e)).find?
          (matchKey a b) =
        (es.find? (matchKey a b)).map (fun e => (e.1, e.2.1, f e.2.2))
  | [] => rfl
  | e :: es => by
    by_cases h : matchKey a b e = true
    · rw [List.map_cons, if_pos h, List.find?_cons_of_pos _ h,
        List.find?_cons_of_pos _ (show matchKey a b (e.1, e.2.1, f e.2.2) = true from h)]
      rfl
    · rw [List.map_cons, if_neg h, List.find?_cons_of_neg _ h,
        List.find?_cons_of_neg _ h]
      exact find?_map_updateIf a b f es

theorem mem_nodeIds_ensureNode_self (ns : List (String × Option String)) (id : String) :
    id ∈ (ensureNode ns id).map Prod.fst := by
  unfold ensureNode
  by_cases h : ns.any (fun n => n.1 == id) = true
  · rw [if_pos h]
    obtain ⟨n, hn, he⟩ := List.any_eq_true.mp h
    exact List.mem_map.mpr ⟨n, hn, by simpa using he⟩
  · rw [if_neg h, List.map_append]
    exact List.mem_append_right _ (by simp)

theorem mem_nodeIds_ensureNode_mono (ns : List (String × Option String))
    (x y : String) (h : x ∈ ns.map Prod.fst) :
    x ∈ (ensureNode ns y).map Prod.fst := by
  unfold ensureNode
  split
  · exact h
  · rw [List.map_append]
    exact List.mem_append_left _ h

theorem findEdge_add_edge (g : Graph) (a b : String) (l : NetworkLink) :
    (g.add_edge a b l).findEdge a b = some l := by
  unfold Graph.add_edge Graph.findEdge
  by_cases h : (g.edges.find? (matchKey a b)).isSome = true
  · rw [if_pos h]
    obtain ⟨e, he⟩ := Option.isSome_iff_exists.mp h
    simp only [find?_map_updateIf a b (fun _ => l) g.edges, he, Option.map_some']
  · rw [if_neg h]
    simp only [List.find?_append, Option.not_isSome_iff_eq_none.mp h, Option.none_or]
    have hm : matchKey a b (a, b, l) = true := by simp [matchKey]
    rw [List.find?_cons_of_pos _ hm]
    rfl

theorem nodeIds_add_edge (g : Graph) (a b : String) (l : NetworkLink) :
    a ∈ (g.add_edge a b l).nodeIds ∧ b ∈ (g.add_edge a b l).nodeIds := by
  unfold Graph.add_edge Graph.nodeIds
  constructor
  · split <;>
      exact mem_nodeIds_ensureNode_mono _ a b (mem_nodeIds_ensureNode_self g.nodes a)
  · split <;> exact mem_nodeIds_ensureNode_self _ b

/-! ### Claim C4 (corrected) -/

/-- C4 counterexample: on a topology with no nodes at all, `add_link` does
not fail with `UnknownNodeError`; it succeeds, silently creating both
endpoints and the edge.  This refutes the claim that a missing endpoint
makes `add_link` fail. -/
theorem C4_counterexample :
    add_link ⟨⟨[], []⟩, []⟩ "A" "B" ⟨1, 1, 1, 1, 1⟩ =
        Except.ok ⟨⟨[("A", none), ("B", none)], [("A", "B", ⟨1, 1, 1, 1, 1⟩)]⟩, []⟩
      ∧ add_link ⟨⟨[], []⟩, []⟩ "A" "B" ⟨1, 1, 1, 1, 1⟩ ≠
        Except.error SdwanError.unknownNodeError := by
  constructor
  · rfl
  · simp [add_link]

/-- C4 amended: `add_link` never fails.  A missing endpoint is implicitly
created as a node (`UnknownNodeError` is never raised), and when the
unordered pair already has a link its metrics are overwritten by the new
link's metrics (`DuplicateLinkError` is never raised); in every case the
call succeeds and afterwards the pair carries exactly the supplied link. -/
theorem C4_add_link_amended (c : SDWANController) (a b : String) (l : NetworkLink) :
    ∃ c', add_link c a b l = Except.ok c'
      ∧ a ∈ c'.topology.nodeIds ∧ b ∈ c'.topology.nodeIds
      ∧ c'.topology.findEdge a b = some l := by
  refine ⟨_, rfl, ?_, ?_, findEdge_add_edge c.topology a b l⟩
  · exact (nodeIds_add_edge c.topology a b l).1
  · exact (nodeIds_add_edge c.topology a b l).2

/-! ### Claim C3 (corrected) -/

/-- C3 counterexample: with two registered nodes and no link between them,
`update_link_metrics` does not fail with `LinkNotFoundError`; it succeeds
and leaves the controller completely unchanged (a silent no-op). -/
theorem C3_counterexample :
    update_link_metrics ⟨⟨[("A", some "hub"), ("B", some "cpe")], []⟩, []⟩ "A" "B"
        { latency := some 5 } =
      Except.ok ⟨⟨[("A", some "hub"), ("B", some "cpe")], []⟩, []⟩
    ∧ update_link_metrics ⟨⟨[("A", some "hub"), ("B", some "cpe")], []⟩, []⟩ "A" "B"
        { latency := some 5 } ≠
      Except.error SdwanError.linkNotFoundError := by
  constructor
  · rfl
  · simp [update_link_metrics, Graph.findEdge]

/-- C3 amended: when no link joins the pair, `update_link_metrics` is a
silent no-op (it returns successfully with the controller unchanged, raising
no `LinkNotFoundError`); when a link exists, exactly the supplied metric
fields are set to the supplied values and every field not supplied keeps its
previous value. -/
theorem C3_update_link_metrics_amended (c : SDWANController) (a b : String)
    (m : MetricUpdate) :
    (c.topology.findEdge a b = none → update_link_metrics c a b m = Except.ok c)
    ∧ (∀ l, c.topology.findEdge a b = some l →
        ∃ c', update_link_metrics c a b m = Except.ok c'
          ∧ c'.topology.findEdge a b = some
              { latency := m.latency.getD l.latency
                jitter := m.jitter.getD l.jitter
                packet_loss := m.packet_loss.getD l.packet_loss
                bandwidth := m.bandwidth.getD l.bandwidth
                cost := m.cost.getD l.cost }) := by
  constructor
  · intro hnone
    unfold update_link_metrics
    rw [if_neg (by simp [hnone])]
  · intro l hsome
    unfold update_link_metrics
    rw [if_pos (by simp [hsome])]
    refine ⟨_, rfl, ?_⟩
    obtain ⟨e, he, hpay⟩ : ∃ e, c.topology.edges.find? (matchKey a b) = some e ∧ e.2.2 = l := by
      unfold Graph.findEdge at hsome
      obtain ⟨e, he⟩ := Option.map_eq_some'.mp hsome
      exact ⟨e, he.1, he.2⟩
    show (Graph.findEdge _ a b) = _
    unfold Graph.findEdge
    simp only [find?_map_updateIf a b (fun x => applyUpdate x m) c.topology.edges, he,
      Option.map_some']
    rw [hpay]
    rfl


/-! ### Walk and path-enumeration lemmas -/

theorem isWalk_cons_tail (g : Graph) (a : String) (q : List String)
    (h : isWalk g (a :: q) = true) (hq : q ≠ []) : isWalk g q = true := by
  cases q with
  | nil => exact absurd rfl hq
  | cons v rest =>
    simp only [isWalk, Bool.and_eq_true] at h
    exact h.2

theorem isWalk_suffix (g : Graph) (x : String) (l2 : List String) :
    ∀ l1, isWalk g (l1 ++ x :: l2) = true → isWalk g (x :: l2) = true
  | [], h => h
  | a :: l1, h => by
    have h' : isWalk g (l1 ++ x :: l2) = true :=
      isWalk_cons_tail g a _ h (by simp)
    exact isWalk_suffix g x l2 l1 h'

theorem adj_mem_nodeIds (g : Graph) (hwf : g.wf) (u v : String)
    (h : g.adj u v = true) : u ∈ g.nodeIds ∧ v ∈ g.nodeIds := by
  unfold Graph.adj Graph.findEdge at h
  obtain ⟨l, hl⟩ := Option.isSome_iff_exists.mp h
  obtain ⟨e, he, _⟩ := Option.map_eq_some'.mp hl
  have hmem := List.mem_of_find?_eq_some he
  have hkey := List.find?_some he
  have hwfe := hwf e hmem
  rcases (matchKey_iff u v e).mp hkey with ⟨h1, h2⟩ | ⟨h1, h2⟩
  · exact ⟨h1 ▸ hwfe.1, h2 ▸ hwfe.2⟩
  · exact ⟨h2 ▸ hwfe.2, h1 ▸ hwfe.1⟩

theorem pathsAux_sound (g : Graph) (t : String) :
    ∀ (fuel : Nat) (u : String) (vis : List String) (p : List String),
      p ∈ pathsAux g t fuel u vis →
      p.head? = some u ∧ p.getLast? = some t ∧ isWalk g p = true := by
  intro fuel
  induction fuel with
  | zero =>
    intro u vis p hp
    unfold pathsAux at hp
    by_cases h : u = t
    · rw [if_pos h] at hp
      simp only [List.mem_singleton] at hp
      subst hp
      subst h
      exact ⟨rfl, rfl, rfl⟩
    · rw [if_neg h] at hp
      simp at hp
  | succ fuel ih =>
    intro u vis p hp
    unfold pathsAux at hp
    by_cases h : u = t
    · rw [if_pos h] at hp
      simp only [List.mem_singleton] at hp
      subst hp
      subst h
      exact ⟨rfl, rfl, rfl⟩
    · rw [if_neg h] at hp
      obtain ⟨v, hv, hp'⟩ := List.mem_flatMap.mp hp
      obtain ⟨q, hq, hpq⟩ := List.mem_map.mp hp'
      subst hpq
      obtain ⟨hqh, hqt, hqw⟩ := ih v (u :: vis) q hq
      have hadj : g.adj u v = true := by
        have h2 := (List.mem_filter.mp hv).2
        rw [Bool.and_eq_true] at h2
        exact h2.1
      cases q with
      | nil => simp at hqh
      | cons v' q' =>
        have hv' : v' = v := by simpa using hqh
        subst hv'
        refine ⟨rfl, ?_, ?_⟩
        · rw [List.getLast?_cons_cons]
          exact hqt
        · simp only [isWalk, Bool.and_eq_true]
          exact ⟨hadj, hqw⟩

theorem filter_cons_vis_length (l : List String) (vis : List String) (u : String)
    (hu : u ∈ l) (huvis : u ∉ vis) :
    (l.filter (fun x => decide (x ∉ u :: vis))).length + 1 ≤
      (l.filter (fun x => decide (x ∉ vis))).length := by
  have h1 : l.filter (fun x => decide (x ∉ u :: vis)) =
      (l.filter (fun x => decide (x ∉ vis))).filter (fun x => decide (x ≠ u)) := by
    rw [List.filter_filter]
    apply List.filter_congr
    intro x _
    have hiff : (x ∉ u :: vis) ↔ (x ≠ u ∧ x ∉ vis) := by
      simp [not_or]
    rw [decide_eq_decide.mpr hiff, Bool.decide_and]
  set A := l.filter (fun x => decide (x ∉ vis)) with hA
  have huA : u ∈ A := List.mem_filter.mpr ⟨hu, by simpa using huvis⟩
  have hsub : List.Sublist (A.filter (fun x => decide (x ≠ u))) A :=
    List.filter_sublist A
  have hne : (A.filter (fun x => decide (x ≠ u))) ≠ A := by
    intro he
    have hmem : u ∈ A.filter (fun x => decide (x ≠ u)) := by
      rw [he]
      exact huA
    have := (List.mem_filter.mp hmem).2
    simp at this
  have hlt : (A.filter (fun x => decide (x ≠ u))).length < A.length :=
    Nat.lt_of_le_of_ne hsub.length_le (fun hl => hne (hsub.eq_of_length hl))
  rw [h1]
  omega

theorem pathsAux_complete (g : Graph) (hwf : g.wf) (t : String) :
    ∀ (n : Nat) (p : List String) (u : String) (vis : List String) (fuel : Nat),
      p.length ≤ n →
      isWalk g p = true → p.head? = some u → p.getLast? = some t →
      (∀ x ∈ p, x ∉ vis) →
      (g.nodeIds.filter (fun x => decide (x ∉ vis))).length ≤ fuel →
      pathsAux g t fuel u vis ≠ [] := by
  intro n
  induction n with
  | zero =>
    intro p u vis fuel hlen hw hh ht hvis hfuel
    cases p with
    | nil => simp at hh
    | cons a q => simp at hlen
  | succ n ih =>
    intro p u vis fuel hlen hw hh ht hvis hfuel
    cases p with
    | nil => simp at hh
    | cons a q =>
      have ha : a = u := by simpa using hh
      subst ha
      by_cases hut : a = t
      · subst hut
        cases fuel with
        | zero => simp [pathsAux]
        | succ fuel' => simp [pathsAux]
      · cases q with
        | nil =>
          have : a = t := by simpa using ht
          exact absurd this hut
        | cons b rest =>
          simp only [isWalk, Bool.and_eq_true] at hw
          have hadj : g.adj a b = true := hw.1
          have hu_node : a ∈ g.nodeIds := (adj_mem_nodeIds g hwf a b hadj).1
          have hu_vis : a ∉ vis := hvis a (by simp)
          have hu_filter : a ∈ g.nodeIds.filter (fun x => decide (x ∉ vis)) :=
            List.mem_filter.mpr ⟨hu_node, by simpa using hu_vis⟩
          cases fuel with
          | zero =>
            have hpos : 0 < (g.nodeIds.filter (fun x => decide (x ∉ vis))).length :=
              List.length_pos.mpr (List.ne_nil_of_mem hu_filter)
            omega
          | succ fuel' =>
            by_cases hmem : a ∈ b :: rest
            · obtain ⟨l1, l2, hdec⟩ := List.mem_iff_append.mp hmem
              have hw' : isWalk g (a :: l2) = true := by
                have hwt : isWalk g (b :: rest) = true := hw.2
                rw [hdec] at hwt
                exact isWalk_suffix g a l2 l1 hwt
              have hlast' : (a :: l2).getLast? = some t := by
                have h1 : (b :: rest).getLast? = some t := by
                  rw [← List.getLast?_cons_cons (a := a)]
                  exact ht
                rw [hdec, List.getLast?_append_of_ne_nil _ (by simp)] at h1
                exact h1
              have hvis' : ∀ x ∈ a :: l2, x ∉ vis := by
                intro x hx
                apply hvis
                rcases List.mem_cons.mp hx with rfl | hx'
                · simp
                · have hxin : x ∈ b :: rest := by
                    rw [hdec]
                    exact List.mem_append_right _ (List.mem_cons_of_mem a hx')
                  exact List.mem_cons_of_mem a hxin
              have hlen' : (a :: l2).length ≤ n := by
                have hlc := congrArg List.length hdec
                simp only [List.length_cons, List.length_append] at hlc hlen ⊢
                omega
              exact ih (a :: l2) a vis (fuel' + 1) hlen' hw' rfl hlast' hvis' hfuel
            · have hb_node : b ∈ g.nodeIds := (adj_mem_nodeIds g hwf a b hadj).2
              have hb_vis : b ∉ vis := hvis b (by simp)
              have hb_filter :
                  b ∈ g.nodeIds.filter (fun v => g.adj a v && decide (v ∉ vis)) := by
                refine List.mem_filter.mpr ⟨hb_node, ?_⟩
                rw [Bool.and_eq_true]
                exact ⟨hadj, by simpa using hb_vis⟩
              have hinner : pathsAux g t fuel' b (a :: vis) ≠ [] := by
                apply ih (b :: rest) b (a :: vis) fuel'
                · simp only [List.length_cons] at hlen ⊢
                  omega
                · exact hw.2
                · rfl
                · rw [← List.getLast?_cons_cons (a := a)]
                  exact ht
                · intro x hx
                  have hxvis : x ∉ vis := hvis x (List.mem_cons_of_mem a hx)
                  have hxa : x ≠ a := by
                    intro hxe
                    exact hmem (hxe ▸ hx)
                  simp [hxa, hxvis]
                · have := filter_cons_vis_length g.nodeIds vis a hu_node hu_vis
                  omega
              obtain ⟨q0, hq0⟩ := List.exists_mem_of_ne_nil _ hinner
              have hmemflat : (a :: q0) ∈ pathsAux g t (fuel' + 1) a vis := by
                unfold pathsAux
                rw [if_neg hut]
                exact List.mem_flatMap.mpr
                  ⟨b, hb_filter, List.mem_map.mpr ⟨q0, hq0, rfl⟩⟩
              exact List.ne_nil_of_mem hmemflat

theorem simplePaths_sound (g : Graph) (s t : String) (p : List String)
    (hp : p ∈ simplePaths g s t) :
    p.head? = some s ∧ p.getLast? = some t ∧ isWalk g p = true :=
  pathsAux_sound g t _ s [] p hp

theorem simplePaths_ne_nil_iff (g : Graph) (hwf : g.wf) (s t : String) :
    simplePaths g s t ≠ [] ↔ Reach g s t := by
  constructor
  · intro h
    obtain ⟨p, hp⟩ := List.exists_mem_of_ne_nil _ h
    obtain ⟨h1, h2, h3⟩ := simplePaths_sound g s t p hp
    exact ⟨p, h3, h1, h2⟩
  · rintro ⟨p, hw, hh, ht⟩
    unfold simplePaths
    apply pathsAux_complete g hwf t p.length p s [] g.nodeIds.length le_rfl hw hh ht
    · intro x _
      simp
    · have hfe : (g.nodeIds.filter (fun x => decide (x ∉ ([] : List String)))) =
          g.nodeIds := by
        apply List.filter_eq_self.mpr
        intro x _
        simp
      rw [hfe]

theorem foldl_min_mem (w : List String → ℚ) :
    ∀ (ps : List (List String)) (acc : List String),
      ps.foldl (fun best q => if w q < w best then q else best) acc ∈ acc :: ps
  | [], acc => by simp
  | q :: ps, acc => by
    have hrec := foldl_min_mem w ps (if w q < w acc then q else acc)
    simp only [List.foldl_cons]
    rcases List.mem_cons.mp hrec with h | h
    · rw [h]
      split
      · exact List.mem_cons_of_mem _ (List.mem_cons_self q ps)
      · exact List.mem_cons_self acc _
    · exact List.mem_cons_of_mem _ (List.mem_cons_of_mem q h)

theorem minWeightPath_eq_none_iff (w : List String → ℚ) (ps : List (List String)) :
    minWeightPath w ps = none ↔ ps = [] := by
  cases ps <;> simp [minWeightPath]

theorem minWeightPath_mem (w : List String → ℚ) (ps : List (List String))
    (p : List String) (h : minWeightPath w ps = some p) : p ∈ ps := by
  cases ps with
  | nil => simp [minWeightPath] at h
  | cons q qs =>
    simp only [minWeightPath, Option.some.injEq] at h
    subst h
    exact foldl_min_mem w qs q

/-! ### Claim C7 (confirmed) -/

/-- C7: for a registered flow whose endpoints are present in a well-formed
topology (with the data model's positive bandwidths, under which the `ℚ`
embedding of the weight functions matches Python), `calculate_best_path`
returns a path starting at the flow's source and ending at its destination,
fails with `NoPathError` exactly when source and destination are
disconnected in the underlying connectivity graph, and whether a path is
found depends only on connectivity — the sensitivity's weight choice plays
no role in it. -/
theorem C7_calculate_best_path (c : SDWANController) (fid : String)
    (flow : TrafficFlow)
    (hlookup : c.flows.lookup fid = some flow)
    (hwf : c.topology.wf)
    (hbw : ∀ e ∈ c.topology.edges, 0 < e.2.2.bandwidth)
    (hs : flow.source ∈ c.topology.nodeIds)
    (ht : flow.destination ∈ c.topology.nodeIds) :
    (∀ p, calculate_best_path c fid = Except.ok p →
        p.head? = some flow.source ∧ p.getLast? = some flow.destination)
    ∧ (calculate_best_path c fid = Except.error SdwanError.noPathError ↔
        ¬ Reach c.topology flow.source flow.destination)
    ∧ ((∃ p, calculate_best_path c fid = Except.ok p) ↔
        Reach c.topology flow.source flow.destination) := by
  have hcbp : calculate_best_path c fid =
      shortestPath c.topology flow.source flow.destination
        (weightFor flow.sensitivity) := by
    unfold calculate_best_path
    rw [hlookup]
  rw [shortestPath, if_pos ⟨hs, ht⟩] at hcbp
  cases hmw : minWeightPath
      (pathWeight c.topology (weightFor flow.sensitivity))
      (simplePaths c.topology flow.source flow.destination) with
  | none =>
    have hres : calculate_best_path c fid = Except.error SdwanError.noPathError := by
      rw [hcbp, hmw]
    have hnr : ¬ Reach c.topology flow.source flow.destination := by
      intro hr
      have hnn := (simplePaths_ne_nil_iff c.topology hwf
        flow.source flow.destination).mpr hr
      exact hnn ((minWeightPath_eq_none_iff _ _).mp hmw)
    refine ⟨?_, ⟨fun _ => hnr, fun _ => hres⟩, ?_, ?_⟩
    · intro p hp
      rw [hres] at hp
      exact Except.noConfusion hp
    · rintro ⟨p, hp⟩
      rw [hres] at hp
      exact Except.noConfusion hp
    · intro hr
      exact absurd hr hnr
  | some p =>
    have hres : calculate_best_path c fid = Except.ok p := by
      rw [hcbp, hmw]
    have hpmem := minWeightPath_mem _ _ p hmw
    have hends := simplePaths_sound c.topology flow.source flow.destination p hpmem
    have hr : Reach c.topology flow.source flow.destination :=
      (simplePaths_ne_nil_iff c.topology hwf flow.source flow.destination).mp
        (List.ne_nil_of_mem hpmem)
    refine ⟨?_, ⟨?_, fun hnr => absurd hr hnr⟩, fun _ => hr, fun _ => ⟨p, hres⟩⟩
    · intro p' hp'
      rw [hres] at hp'
      have : p = p' := by
        injection hp'
      subst this
      exact ⟨hends.1, hends.2.1⟩
    · intro herr
      rw [hres] at herr
      exact Except.noConfusion herr

/-- C7 witness: the theorem applied to the demo scenario's voip1 flow. -/
theorem C7_calculate_best_path_witness :
    (∀ p, calculate_best_path demo "voip1" = Except.ok p →
        p.head? = some "Branch1" ∧ p.getLast? = some "HQ")
    ∧ (calculate_best_path demo "voip1" = Except.error SdwanError.noPathError ↔
        ¬ Reach demo.topology "Branch1" "HQ")
    ∧ ((∃ p, calculate_best_path demo "voip1" = Except.ok p) ↔
        Reach demo.topology "Branch1" "HQ") :=
  C7_calculate_best_path demo "voip1" ⟨"Branch1", "HQ", 1 / 2, 1, "latency"⟩
    rfl (by unfold Graph.wf; decide) (by decide) (by decide) (by decide)

/-! ### Claim C9 (confirmed) -/

/-- C9: in the demo scenario (nodes HQ, Branch1, Branch2, CloudGW and the
five listed links), flow voip1 (Branch1 to HQ, latency sensitivity) is
routed over the direct link: path [Branch1, HQ], aggregated latency 30 and
jitter 5, and score 100 − 0.5·30 − 0.3·5 = 83.5 (the rational 167/2). -/
theorem C9_demo_voip1 :
    calculate_best_path demo "voip1" = Except.ok ["Branch1", "HQ"]
    ∧ get_path_metrics demo.topology ["Branch1", "HQ"] =
        some ⟨30, 5, 1 / 10, some 50⟩
    ∧ (simulate_traffic demo).toOption.bind (fun rs => rs.lookup "voip1") =
        some ⟨["Branch1", "HQ"], ⟨30, 5, 1 / 10, some 50⟩, 167 / 2⟩ := by
  refine ⟨?_, ?_, ?_⟩
  · with_unfolding_all rfl
  · with_unfolding_all rfl
  · with_unfolding_all rfl

/-! ### Path-metric aggregation lemmas -/

theorem foldl_stepAcc_latency :
    ∀ (es : List NetworkLink) (a : MetricsAcc),
      (es.foldl stepAcc a).latency = a.latency + (es.map NetworkLink.latency).sum
  | [], a => by simp
  | e :: es, a => by
    rw [List.foldl_cons, foldl_stepAcc_latency es, List.map_cons, List.sum_cons]
    show a.latency + e.latency + _ = _
    ring

theorem foldl_stepAcc_jitter :
    ∀ (es : List NetworkLink) (a : MetricsAcc),
      (es.foldl stepAcc a).jitter = a.jitter + (es.map NetworkLink.jitter).sum
  | [], a => by simp
  | e :: es, a => by
    rw [List.foldl_cons, foldl_stepAcc_jitter es, List.map_cons, List.sum_cons]
    show a.jitter + e.jitter + _ = _
    ring

theorem foldl_stepAcc_survive :
    ∀ (es : List NetworkLink) (a : MetricsAcc),
      (es.foldl stepAcc a).survive =
        a.survive * (es.map (fun e => 1 - e.packet_loss / 100)).prod
  | [], a => by simp
  | e :: es, a => by
    rw [List.foldl_cons, foldl_stepAcc_survive es, List.map_cons, List.prod_cons]
    show a.survive * (1 - e.packet_loss / 100) * _ = _
    ring

theorem foldl_stepAcc_bandwidth_some :
    ∀ (es : List NetworkLink) (a : MetricsAcc) (b : ℚ), a.bandwidth = some b →
      (es.foldl stepAcc a).bandwidth =
        some ((es.map NetworkLink.bandwidth).foldl min b)
  | [], a, b, h => by simpa using h
  | e :: es, a, b, h => by
    rw [List.foldl_cons, List.map_cons, List.foldl_cons]
    exact foldl_stepAcc_bandwidth_some es (stepAcc a e) (min b e.bandwidth)
      (by simp [stepAcc, h])

theorem foldl_stepAcc_bandwidth_none :
    ∀ (es : List NetworkLink) (a : MetricsAcc), a.bandwidth = none →
      (es.foldl stepAcc a).bandwidth = (es.map NetworkLink.bandwidth).min?
  | [], a, h => by simpa using h
  | e :: es, a, h => by
    rw [List.foldl_cons, List.map_cons, List.min?_cons']
    exact foldl_stepAcc_bandwidth_some es (stepAcc a e) e.bandwidth
      (by simp [stepAcc, h])

/-! ### Claim C8 (confirmed) -/

/-- C8: for every path whose consecutive nodes are linked, the aggregated
metrics satisfy: latency is the sum of per-edge latency, jitter the sum of
per-edge jitter, packet_loss equals (1 − ∏(1 − loss/100))·100, and bandwidth
is the minimum per-edge bandwidth; in particular an all-zero-loss path
aggregates to exactly 0% loss and a one-edge path with loss L to exactly L. -/
theorem C8_get_path_metrics (g : Graph) (p : List String) (es : List NetworkLink)
    (h : edgesOf g p = some es) :
    ∃ m, get_path_metrics g p = some m
      ∧ m.latency = (es.map NetworkLink.latency).sum
      ∧ m.jitter = (es.map NetworkLink.jitter).sum
      ∧ m.packet_loss = (1 - (es.map (fun e => 1 - e.packet_loss / 100)).prod) * 100
      ∧ m.bandwidth = (es.map NetworkLink.bandwidth).min?
      ∧ ((∀ e ∈ es, e.packet_loss = 0) → m.packet_loss = 0)
      ∧ (∀ e, es = [e] → m.packet_loss = e.packet_loss) := by
  have hm : get_path_metrics g p = some
      ⟨(es.foldl stepAcc ⟨0, 0, 1, none⟩).latency,
        (es.foldl stepAcc ⟨0, 0, 1, none⟩).jitter,
        (1 - (es.foldl stepAcc ⟨0, 0, 1, none⟩).survive) * 100,
        (es.foldl stepAcc ⟨0, 0, 1, none⟩).bandwidth⟩ := by
    unfold get_path_metrics
    rw [h]
    rfl
  have hpl : (1 - (es.foldl stepAcc ⟨0, 0, 1, none⟩).survive) * 100 =
      (1 - (es.map (fun e => 1 - e.packet_loss / 100)).prod) * 100 := by
    rw [foldl_stepAcc_survive]
    norm_num
  refine ⟨_, hm, ?_, ?_, hpl, ?_, ?_, ?_⟩
  · rw [foldl_stepAcc_latency]
    show (0 : ℚ) + _ = _
    ring
  · rw [foldl_stepAcc_jitter]
    show (0 : ℚ) + _ = _
    ring
  · exact foldl_stepAcc_bandwidth_none es _ rfl
  · intro hz
    rw [hpl]
    have hone : (es.map (fun e => 1 - e.packet_loss / 100)).prod = 1 := by
      apply List.prod_eq_one
      intro x hx
      obtain ⟨e, he, hex⟩ := List.mem_map.mp hx
      rw [← hex, hz e he]
      norm_num
    rw [hone]
    ring
  · intro e he
    rw [hpl, he]
    show (1 - ((1 - e.packet_loss / 100) * 1)) * 100 = _
    ring

/-- C8 witness: the aggregation facts instantiated on the demo's one-edge
voip1 path. -/
theorem C8_get_path_metrics_witness :
    ∃ m, get_path_metrics demo.topology ["Branch1", "HQ"] = some m
      ∧ m.latency = ([(⟨30, 5, 1 / 10, 50, 1⟩ : NetworkLink)].map NetworkLink.latency).sum
      ∧ m.jitter = ([(⟨30, 5, 1 / 10, 50, 1⟩ : NetworkLink)].map NetworkLink.jitter).sum
      ∧ m.packet_loss = (1 - ([(⟨30, 5, 1 / 10, 50, 1⟩ : NetworkLink)].map
            (fun e => 1 - e.packet_loss / 100)).prod) * 100
      ∧ m.bandwidth = ([(⟨30, 5, 1 / 10, 50, 1⟩ : NetworkLink)].map
            NetworkLink.bandwidth).min?
      ∧ ((∀ e ∈ [(⟨30, 5, 1 / 10, 50, 1⟩ : NetworkLink)], e.packet_loss = 0) →
          m.packet_loss = 0)
      ∧ (∀ e, [(⟨30, 5, 1 / 10, 50, 1⟩ : NetworkLink)] = [e] →
          m.packet_loss = e.packet_loss) :=
  C8_get_path_metrics demo.topology ["Branch1", "HQ"] [⟨30, 5, 1 / 10, 50, 1⟩]
    (by with_unfolding_all rfl)

/-! ### Claim C2 (corrected) -/

/-- C2 counterexample: for the unspecified sensitivity no score is computed
at all — `_calculate_path_score` falls through its `if/elif` chain with
`score` unassigned and raises `UnboundLocalError` at the return statement —
refuting the claim that the score is defined (and in [0,100]) for the
unspecified sensitivity as well. -/
theorem C2_counterexample :
    calculate_path_score ⟨10, 2, 0, some 50⟩ ⟨"A", "B", 1, 1, "unspecified"⟩ =
      none := by
  with_unfolding_all rfl

/-- C2 amended: for the three recognized sensitivities (latency, throughput,
reliability) the score is defined and lies within [0,100] for finite,
non-negative aggregated metrics and positive required bandwidth; for every
other sensitivity — including the unspecified one — `_calculate_path_score`
raises `UnboundLocalError` and no score is defined. -/
theorem C2_calculate_path_score_amended (m : PathMetrics) (flow : TrafficFlow)
    (b : ℚ)
    (hlat : 0 ≤ m.latency) (hjit : 0 ≤ m.jitter) (hpl : 0 ≤ m.packet_loss)
    (hb : m.bandwidth = some b) (hb0 : 0 ≤ b)
    (hrb : 0 < flow.required_bandwidth) :
    ((flow.sensitivity = "latency" ∨ flow.sensitivity = "throughput" ∨
        flow.sensitivity = "reliability") →
      ∃ s, calculate_path_score m flow = some s ∧ 0 ≤ s ∧ s ≤ 100)
    ∧ ((flow.sensitivity ≠ "latency" ∧ flow.sensitivity ≠ "throughput" ∧
        flow.sensitivity ≠ "reliability") →
      calculate_path_score m flow = none) := by
  have hclamp : ∀ s : ℚ, 0 ≤ clampScore s ∧ clampScore s ≤ 100 := by
    intro s
    unfold clampScore
    exact ⟨le_max_left 0 _, max_le (by norm_num) (min_le_left 100 s)⟩
  constructor
  · rintro (hs | hs | hs) <;> rw [calculate_path_score]
    · rw [if_pos hs]
      exact ⟨_, rfl, hclamp _⟩
    · rw [if_neg (by rw [hs]; decide), if_pos hs, hb]
      exact ⟨_, rfl, hclamp _⟩
    · rw [if_neg (by rw [hs]; decide), if_neg (by rw [hs]; decide), if_pos hs]
      exact ⟨_, rfl, hclamp _⟩
  · rintro ⟨h1, h2, h3⟩
    rw [calculate_path_score, if_neg h1, if_neg h2, if_neg h3]

/-- C2 witness: the amended score bounds instantiated on concrete metrics
and the demo's voip1 flow parameters. -/
theorem C2_calculate_path_score_amended_witness :
    ((("latency" : String) = "latency" ∨ ("latency" : String) = "throughput" ∨
        ("latency" : String) = "reliability") →
      ∃ s, calculate_path_score ⟨10, 2, 0, some 50⟩
          ⟨"Branch1", "HQ", 1 / 2, 1, "latency"⟩ = some s ∧ 0 ≤ s ∧ s ≤ 100)
    ∧ ((("latency" : String) ≠ "latency" ∧ ("latency" : String) ≠ "throughput" ∧
        ("latency" : String) ≠ "reliability") →
      calculate_path_score ⟨10, 2, 0, some 50⟩
          ⟨"Branch1", "HQ", 1 / 2, 1, "latency"⟩ = none) :=
  C2_calculate_path_score_amended ⟨10, 2, 0, some 50⟩
    ⟨"Branch1", "HQ", 1 / 2, 1, "latency"⟩ 50
    (by norm_num) (by norm_num) le_rfl rfl (by norm_num) (by norm_num)

/-! ### Claim C1 (corrected) -/

theorem collectResults_error_of_mem (c : SDWANController) :
    ∀ (fl : List (String × TrafficFlow)) (kv : String × TrafficFlow), kv ∈ fl →
      (∀ r, evalFlow c kv.1 kv.2 ≠ Except.ok r) →
      ∀ rs, collectResults c fl ≠ Except.ok rs
  | [], kv, hmem, _, rs => by simp at hmem
  | kv0 :: rest, kv, hmem, hfail, rs => by
    intro hok
    cases hev : evalFlow c kv0.1 kv0.2 with
    | error e =>
      simp only [collectResults, hev] at hok
      exact Except.noConfusion hok
    | ok r =>
      cases hrec : collectResults c rest with
      | error e =>
        simp only [collectResults, hev, hrec] at hok
        exact Except.noConfusion hok
      | ok rs' =>
        rcases List.mem_cons.mp hmem with heq | hmem'
        · subst heq
          exact hfail r hev
        · exact collectResults_error_of_mem c rest kv hmem' hfail rs' hrec

theorem collectResults_keys (c : SDWANController) :
    ∀ (fl : List (String × TrafficFlow)) (rs : List (String × FlowResult)),
      collectResults c fl = Except.ok rs → rs.map Prod.fst = fl.map Prod.fst
  | [], rs, h => by
    simp only [collectResults, Except.ok.injEq] at h
    subst h
    rfl
  | kv :: rest, rs, h => by
    cases hev : evalFlow c kv.1 kv.2 with
    | error e =>
      simp only [collectResults, hev] at h
      exact Except.noConfusion h
    | ok r =>
      cases hrec : collectResults c rest with
      | error e =>
        simp only [collectResults, hev, hrec] at h
        exact Except.noConfusion h
      | ok rs' =>
        simp only [collectResults, hev, hrec, Except.ok.injEq] at h
        subst h
        simp only [List.map_cons]
        rw [collectResults_keys c rest rs' hrec]

/-- C1 counterexample: in `partialDemo`, flows f1 and f3 evaluate fine on
their own, yet `simulate_traffic` aborts with the unreachable flow f2's
`NoPathError` and returns no result mapping at all — f1's and f3's results
are lost, refuting the per-flow error-entry claim. -/
theorem C1_counterexample :
    simulate_traffic partialDemo = Except.error SdwanError.noPathError
    ∧ (∃ r, evalFlow partialDemo "f1" ⟨"A", "B", 1, 1, "latency"⟩ = Except.ok r)
    ∧ (∃ r, evalFlow partialDemo "f3" ⟨"B", "A", 1, 1, "latency"⟩ = Except.ok r) := by
  refine ⟨?_, ⟨⟨["A", "B"], ⟨10, 1, 0, some 100⟩, 947 / 10⟩, ?_⟩,
    ⟨⟨["B", "A"], ⟨10, 1, 0, some 100⟩, 947 / 10⟩, ?_⟩⟩
  · with_unfolding_all rfl
  · with_unfolding_all rfl
  · with_unfolding_all rfl

/-- C1 amended: `simulate_traffic` has no per-flow failure isolation.  If any
registered flow fails to evaluate (e.g. `NoPathError` for a disconnected
pair), the whole call raises and no result mapping is returned — every other
flow's result is discarded.  Only when every flow evaluates successfully is a
mapping returned, and it then has exactly one entry per registered flow, in
registry order. -/
theorem C1_simulate_traffic_amended (c : SDWANController) :
    ((∃ kv, kv ∈ c.flows ∧ ∀ r, evalFlow c kv.1 kv.2 ≠ Except.ok r) →
      ∀ rs, simulate_traffic c ≠ Except.ok rs)
    ∧ (∀ rs, simulate_traffic c = Except.ok rs →
        rs.map Prod.fst = c.flows.map Prod.fst) := by
  constructor
  · rintro ⟨kv, hmem, hfail⟩ rs
    exact collectResults_error_of_mem c c.flows kv hmem hfail rs
  · intro rs h
    exact collectResults_keys c c.flows rs h

/-- C1 witness: the amended theorem applied to `partialDemo`, discharging
the failing-flow hypothesis with f2. -/
theorem C1_simulate_traffic_amended_witness :
    simulate_traffic partialDemo ≠ Except.ok [] :=
  (C1_simulate_traffic_amended partialDemo).1
    ⟨("f2", ⟨"A", "D", 1, 1, "latency"⟩), by with_unfolding_all decide, by
      intro r h
      rw [show evalFlow partialDemo "f2" ⟨"A", "D", 1, 1, "latency"⟩ =
          Except.error SdwanError.noPathError by with_unfolding_all rfl] at h
      exact Except.noConfusion h⟩ []

/-! ### Optimizer unfolding lemmas -/

theorem optimize_paths_eq_nil (opt : DynamicPathOptimizer) (g : Graph)
    (threshold : ℚ) (h : opt.history.getLast? = none) :
    optimize_paths opt g threshold =
      some (false, ⟨opt.history ++ [capture_state g]⟩) := by
  unfold optimize_paths
  rw [h]

theorem optimize_paths_eq_some (opt : DynamicPathOptimizer) (g : Graph)
    (threshold : ℚ) (last : Snapshot) (h : opt.history.getLast? = some last) :
    optimize_paths opt g threshold =
      match state_diff last (capture_state g) with
      | none => none
      | some d =>
        if d > threshold then some (true, opt)
        else some (false, ⟨opt.history ++ [capture_state g]⟩) := by
  unfold optimize_paths
  rw [h]

/-! ### Claim C5 (corrected) -/

/-- C5 counterexample: baseline latency 0, new latency 10, threshold 10 —
the drift equals the threshold exactly.  The claim requires a reoptimization
signal (drift ≥ threshold), but the source compares with strict `>` and
returns false, merely appending the snapshot. -/
theorem C5_counterexample :
    state_diff (capture_state gBase) (capture_state gDrift) = some 10
    ∧ optimize_paths ⟨[capture_state gBase]⟩ gDrift 10 =
        some (false, ⟨[capture_state gBase, capture_state gDrift]⟩) := by
  constructor
  · with_unfolding_all rfl
  · with_unfolding_all rfl

/-- C5 amended: with the caller-supplied threshold, `optimize_paths` signals
reoptimization exactly when a previous baseline snapshot exists and the
accumulated drift is STRICTLY greater than the threshold (the source
compares `diff > threshold`, not `≥`); the very first call (empty history)
never signals, regardless of metric values. -/
theorem C5_optimize_paths_amended (opt : DynamicPathOptimizer) (g : Graph)
    (threshold : ℚ) :
    (opt.history = [] → optimize_paths opt g threshold =
        some (false, ⟨opt.history ++ [capture_state g]⟩))
    ∧ (∀ last d, opt.history.getLast? = some last →
        state_diff last (capture_state g) = some d →
        (optimize_paths opt g threshold).map Prod.fst =
          some (decide (d > threshold))) := by
  constructor
  · intro h
    exact optimize_paths_eq_nil opt g threshold (by rw [h]; rfl)
  · intro last d hlast hdiff
    rw [optimize_paths_eq_some opt g threshold last hlast, hdiff]
    show (Option.map Prod.fst (if d > threshold then some (true, opt)
      else some (false, (⟨opt.history ++ [capture_state g]⟩ :
        DynamicPathOptimizer)))) = _
    by_cases hd : d > threshold
    · rw [if_pos hd, decide_eq_true hd]
      rfl
    · rw [if_neg hd, decide_eq_false hd]
      rfl

/-- C5 witness: the strict-comparison rule applied on the concrete
baseline/drift pair with a threshold the drift does not exceed. -/
theorem C5_optimize_paths_amended_witness :
    (optimize_paths ⟨[capture_state gBase]⟩ gDrift 20).map Prod.fst =
      some (decide ((10 : ℚ) > 20)) :=
  (C5_optimize_paths_amended ⟨[capture_state gBase]⟩ gDrift 20).2
    (capture_state gBase) 10 (by with_unfolding_all rfl)
    (by with_unfolding_all rfl)

/-! ### Claim C6 (corrected) -/

/-- C6 counterexample: a call that signals reoptimization (drift 10 >
threshold 1) returns with the history unchanged — the fresh snapshot is NOT
appended and does not become the next baseline, refuting the claim that
every call appends. -/
theorem C6_counterexample :
    optimize_paths ⟨[capture_state gBase]⟩ gDrift 1 =
        some (true, ⟨[capture_state gBase]⟩)
    ∧ (⟨[capture_state gBase]⟩ : DynamicPathOptimizer).history ≠
        (⟨[capture_state gBase]⟩ : DynamicPathOptimizer).history ++
          [capture_state gDrift] := by
  constructor
  · with_unfolding_all rfl
  · intro h
    have hlen := congrArg List.length h
    simp at hlen

/-- C6 amended: the freshly captured snapshot is appended to history (and so
becomes the next baseline) only on calls that do NOT signal reoptimization;
a signalling call returns before the append, leaving the history — and hence
the comparison baseline for the next call — unchanged. -/
theorem C6_optimize_paths_amended (opt : DynamicPathOptimizer) (g : Graph)
    (threshold : ℚ) (b : Bool) (opt' : DynamicPathOptimizer)
    (h : optimize_paths opt g threshold = some (b, opt')) :
    (b = true → opt' = opt)
    ∧ (b = false → opt'.history = opt.history ++ [capture_state g]) := by
  cases hlast : opt.history.getLast? with
  | none =>
    rw [optimize_paths_eq_nil opt g threshold hlast] at h
    simp only [Option.some.injEq, Prod.mk.injEq] at h
    obtain ⟨hb, hopt⟩ := h
    subst hb
    constructor
    · intro hfalse
      exact absurd hfalse (by simp)
    · intro _
      rw [← hopt]
  | some last =>
    rw [optimize_paths_eq_some opt g threshold last hlast] at h
    cases hdiff : state_diff last (capture_state g) with
    | none =>
      rw [hdiff] at h
      exact Option.noConfusion h
    | some d =>
      rw [hdiff] at h
      have h' : (if d > threshold then some (true, opt)
          else some (false, (⟨opt.history ++ [capture_state g]⟩ :
            DynamicPathOptimizer))) = some (b, opt') := h
      by_cases hd : d > threshold
      · rw [if_pos hd] at h'
        simp only [Option.some.injEq, Prod.mk.injEq] at h'
        obtain ⟨hb, hopt⟩ := h'
        subst hb
        exact ⟨fun _ => hopt.symm, fun hfalse => absurd hfalse (by simp)⟩
      · rw [if_neg hd] at h'
        simp only [Option.some.injEq, Prod.mk.injEq] at h'
        obtain ⟨hb, hopt⟩ := h'
        subst hb
        constructor
        · intro hfalse
          exact absurd hfalse (by simp)
        · intro _
          rw [← hopt]

/-- C6 witness: the amended rule applied to the concrete signalling call of
the baseline/drift pair. -/
theorem C6_optimize_paths_amended_witness :
    (true = true → (⟨[capture_state gBase]⟩ : DynamicPathOptimizer) =
        ⟨[capture_state gBase]⟩)
    ∧ (true = false →
        (⟨[capture_state gBase]⟩ : DynamicPathOptimizer).history =
          (⟨[capture_state gBase]⟩ : DynamicPathOptimizer).history ++
            [capture_state gDrift]) :=
  C6_optimize_paths_amended ⟨[capture_state gBase]⟩ gDrift 1 true
    ⟨[capture_state gBase]⟩ (by with_unfolding_all rfl)

/-! ### Claim C10 (confirmed) -/

theorem map_capture_eq_of_agree :
    ∀ (l1 l2 : List (String × String × NetworkLink)),
      List.Forall₂ (fun e1 e2 : String × String × NetworkLink =>
        e1.1 = e2.1 ∧ e1.2.1 = e2.2.1 ∧ e1.2.2.latency = e2.2.2.latency ∧
        e1.2.2.jitter = e2.2.2.jitter ∧
        e1.2.2.packet_loss = e2.2.2.packet_loss) l1 l2 →
      l1.map (fun e => ((e.1, e.2.1),
          (⟨e.2.2.latency, e.2.2.jitter, e.2.2.packet_loss⟩ : EdgeState))) =
        l2.map (fun e => ((e.1, e.2.1),
          (⟨e.2.2.latency, e.2.2.jitter, e.2.2.packet_loss⟩ : EdgeState))) := by
  intro l1 l2 h
  induction h with
  | nil => rfl
  | cons ha _ ih =>
    obtain ⟨h1, h2, h3, h4, h5⟩ := ha
    simp only [List.map_cons, ih, List.cons.injEq, and_true]
    rw [h1, h2, h3, h4, h5]

theorem capture_state_eq_of_agree (g1 g2 : Graph)
    (h : List.Forall₂ (fun e1 e2 : String × String × NetworkLink =>
        e1.1 = e2.1 ∧ e1.2.1 = e2.2.1 ∧ e1.2.2.latency = e2.2.2.latency ∧
        e1.2.2.jitter = e2.2.2.jitter ∧ e1.2.2.packet_loss = e2.2.2.packet_loss)
      g1.edges g2.edges) :
    capture_state g1 = capture_state g2 :=
  map_capture_eq_of_agree g1.edges g2.edges h

theorem lookupEdge_self (s : Snapshot) (hnd : (s.map Prod.fst).Nodup) :
    ∀ kv ∈ s, lookupEdge s kv.1 = some kv.2 := by
  induction s with
  | nil =>
    intro kv hkv
    simp at hkv
  | cons a rest ih =>
    intro kv hkv
    rcases List.mem_cons.mp hkv with heq | hmem
    · subst heq
      unfold lookupEdge
      rw [List.find?_cons_of_pos _ (by simp)]
      rfl
    · have hnd' := hnd
      rw [List.map_cons, List.nodup_cons] at hnd'
      have hne : (a.1 == kv.1) = false := by
        rw [beq_eq_false_iff_ne]
        intro he
        exact hnd'.1 (he ▸ List.mem_map_of_mem Prod.fst hmem)
      unfold lookupEdge
      rw [List.find?_cons_of_neg _ (by simp [hne])]
      exact ih hnd'.2 kv hmem

theorem foldl_diffStep_self (s2 : Snapshot) :
    ∀ (s1 : Snapshot), (∀ kv ∈ s1, lookupEdge s2 kv.1 = some kv.2) →
      ∀ t : ℚ, s1.foldl (diffStep s2) (some t) = some t
  | [], _, t => rfl
  | kv :: rest, h, t => by
    rw [List.foldl_cons]
    have hstep : diffStep s2 (some t) kv = some t := by
      unfold diffStep
      rw [h kv (by simp)]
      norm_num
    rw [hstep]
    exact foldl_diffStep_self s2 rest (fun kv' hkv' => h kv' (by simp [hkv'])) t

theorem state_diff_self (s : Snapshot) (hnd : (s.map Prod.fst).Nodup) :
    state_diff s s = some 0 :=
  foldl_diffStep_self s s (lookupEdge_self s hnd) 0

/-- C10: the reoptimization decision observes only per-edge latency, jitter
and packet_loss.  For two topology states with the same edges (in order)
agreeing on those three metrics while differing arbitrarily in bandwidth and
cost, the captured snapshots are equal, the drift between them is 0, and
`optimize_paths` behaves identically on both for every history and
threshold — bandwidth or cost changes alone can never trigger
reoptimization. -/
theorem C10_capture_observes_only_drift_metrics (g1 g2 : Graph)
    (hagree : List.Forall₂ (fun e1 e2 : String × String × NetworkLink =>
        e1.1 = e2.1 ∧ e1.2.1 = e2.2.1 ∧ e1.2.2.latency = e2.2.2.latency ∧
        e1.2.2.jitter = e2.2.2.jitter ∧ e1.2.2.packet_loss = e2.2.2.packet_loss)
      g1.edges g2.edges)
    (hnd : (g1.edges.map (fun e => (e.1, e.2.1))).Nodup) :
    capture_state g1 = capture_state g2
    ∧ state_diff (capture_state g1) (capture_state g2) = some 0
    ∧ ∀ (opt : DynamicPathOptimizer) (threshold : ℚ),
        optimize_paths opt g1 threshold = optimize_paths opt g2 threshold := by
  have hcap := capture_state_eq_of_agree g1 g2 hagree
  have hkeys : (capture_state g1).map Prod.fst =
      g1.edges.map (fun e => (e.1, e.2.1)) := by
    unfold capture_state
    rw [List.map_map]
    rfl
  refine ⟨hcap, ?_, ?_⟩
  · rw [← hcap]
    exact state_diff_self _ (by rw [hkeys]; exact hnd)
  · intro opt threshold
    unfold optimize_paths
    rw [hcap]

/-- C10 witness: two one-edge topologies identical except for bandwidth
(10 vs 99) and cost (1 vs 7). -/
theorem C10_capture_observes_only_drift_metrics_witness :
    capture_state ⟨[("A", some "hub"), ("B", some "cpe")],
        [("A", "B", ⟨1, 2, 3, 10, 1⟩)]⟩ =
      capture_state ⟨[("A", some "hub"), ("B", some "cpe")],
        [("A", "B", ⟨1, 2, 3, 99, 7⟩)]⟩
    ∧ state_diff
        (capture_state ⟨[("A", some "hub"), ("B", some "cpe")],
          [("A", "B", ⟨1, 2, 3, 10, 1⟩)]⟩)
        (capture_state ⟨[("A", some "hub"), ("B", some "cpe")],
          [("A", "B", ⟨1, 2, 3, 99, 7⟩)]⟩) = some 0
    ∧ ∀ (opt : DynamicPathOptimizer) (threshold : ℚ),
        optimize_paths opt ⟨[("A", some "hub"), ("B", some "cpe")],
            [("A", "B", ⟨1, 2, 3, 10, 1⟩)]⟩ threshold =
          optimize_paths opt ⟨[("A", some "hub"), ("B", some "cpe")],
            [("A", "B", ⟨1, 2, 3, 99, 7⟩)]⟩ threshold :=
  C10_capture_observes_only_drift_metrics _ _
    (List.Forall₂.cons ⟨rfl, rfl, rfl, rfl, rfl⟩ List.Forall₂.nil) (by simp)

/-- C3 witness: the merge rule applied on a concrete linked pair, updating
only latency — the supplied field is set, the four unsupplied fields keep
their previous values. -/
theorem C3_update_link_metrics_amended_witness :
    ∃ c', update_link_metrics ⟨gBase, []⟩ "A" "B" { latency := some 5 } =
        Except.ok c'
      ∧ c'.topology.findEdge "A" "B" = some ⟨5, 0, 0, 10, 1⟩ :=
  (C3_update_link_metrics_amended ⟨gBase, []⟩ "A" "B" { latency := some 5 }).2
    ⟨0, 0, 0, 10, 1⟩ (by with_unfolding_all rfl)

end SDWAN
